import Mathlib

/-!
Shallow embedding of `porcupine/actions.py` (an action registry for an
editor). The Python module keeps a module-level ordered dictionary
`_actions` from path strings to `Action` objects, mutates shared tkinter
variables, and emits virtual events on the main window. We model the
whole observable world as one explicit state record `St` that every
operation threads:

  * `actions`      — the `_actions` ordered dict, as an association list
                     (insertion order preserved, keys unique in all
                     reachable states);
  * `vars`         — the heap of tkinter variables, indexed by allocation
                     order (`tkinter.BooleanVar()` / `tkinter.StringVar()`
                     append a fresh cell and ids are never reused);
  * `traces`       — the write traces installed with `var.trace_add`
                     (one per `choice` action, added in `Action.__init__`);
  * `subs`         — the `<<NotebookTabChanged>>` subscriptions installed
                     for `tabtypes` filters (one per filtered action);
  * `keyBindings`  — the keyboard bindings installed with `bind_all` plus
                     `bind_class` (recorded once per action);
  * `events`       — the log of virtual events generated on the main
                     window (`<<NewAction>>`, `<<ActionEnabled>>`,
                     `<<ActionDisabled>>`, each carrying a path as data);
  * `warnings`     — the log of `warnings.warn` calls;
  * `calls`        — the log of invoked `command` callbacks (callbacks are
                     opaque, identified by a number);
  * `focused`      — what `porcupine.get_tab_manager().select()` returns.

Python exceptions become an `Option Err` result component: side effects
performed before a `raise` persist in the returned state, exactly as in
Python, which is why registration returns `St × Option Err` rather than
an `Except` that would silently roll the state back.

Tab types: the `porcupine.tabs` class hierarchy is not part of the
sampled source. Modelled from the spec: document types are flat
document-type tags (`tabTypeFilter`: a set of such tags,
where one designated tag means that no document is focused), so
`isinstance(tab, actual_tabtypes)` is membership of the tag of the
focused tab in the filter, and the `None ↦ type(None)` rewrite in
`_add_any_action` is the identity on tags. A tag is `Option Nat`, with
`none` the designated no-document tag.
-/

set_option autoImplicit false

namespace Porcupine

/-- Values stored in tkinter variables (`BooleanVar` holds booleans,
`StringVar` holds strings); also the element type of `choices`. -/
inductive Val where
  | b (x : Bool)
  | s (x : String)
deriving DecidableEq, Repr

/-- The `kind` tag of an action: `command`, `choice` or `yesno`. -/
inductive Kind where
  | command
  | choice
  | yesno
deriving DecidableEq, Repr

/-- Virtual events generated on the main window, with their `data` path. -/
inductive Event where
  | newAction (path : String)
  | actionEnabled (path : String)
  | actionDisabled (path : String)
deriving DecidableEq, Repr

/-- Python exceptions raised by the module. -/
inductive Err where
  | valueError (msg : String)
  | runtimeError (msg : String)
  | typeError (msg : String)
  | keyError (key : String)
  | indexError
  | assertionError
deriving DecidableEq, Repr

/-- The specification name `InvalidPathError`: the `ValueError` raised by
the path syntax check in `_add_any_action`. -/
def InvalidPathError : Err :=
  Err.valueError ("action paths must not start or end with /")

/-- The specification name `DuplicatePathError`: the `RuntimeError` raised
by the uniqueness check in `_add_any_action`. The model keeps the format
string of the message, eliding the `% path` interpolation. -/
def DuplicatePathError : Err :=
  Err.runtimeError ("there\x27s already an action with path %r")

/-- The specification name `ConfigurationError`: the `TypeError` raised by
`add_yesno` when neither `default` nor `var` is given. -/
def ConfigurationError : Err :=
  Err.typeError ("specify default or var")

/-- The specification name `InvalidChoiceError`, first form: the
`ValueError` raised by `add_choice` for a `default` not in `choices`. -/
def InvalidChoiceDefault : Err :=
  Err.valueError ("default value %r is not in choices")

/-- The specification name `InvalidChoiceError`, second form: the
`ValueError` raised by `add_choice` when the current value of a given
`var` is not in `choices`. -/
def InvalidChoiceVar : Err :=
  Err.valueError ("the var\x27s current value %r is not in choices")

/-- A `warnings.warn` record: the message of `_var_set_check` names the
action (via `repr(self)`, which shows its path) and the offending value. -/
structure Warning where
  path : String
  value : Val
deriving DecidableEq, Repr

/-- A `trace_add` registration made by `Action.__init__` for a `choice`
action: which variable is watched, and the path and choices of the
watching action (the trace callback reads `self.choices`). -/
structure TraceRec where
  path : String
  vid : Nat
  choices : List Val
deriving DecidableEq, Repr

/-- A document-type tag; `none` designates the no-document-focused case
(Python `None` / `type(None)`). Modelled from the spec, since the
`porcupine.tabs` class hierarchy is not part of the sampled source. -/
abbrev TabType := Option Nat

/-- The `Action` object. Exactly the fields `Action.__init__` assigns:
`path`, `kind`, `binding`, `_enabled` (here `enabled`), and the
kind-specific ones (`callback` for `command`; `var` for `choice` and
`yesno`; `choices` for `choice`). Callbacks are opaque, identified by a
number. -/
structure Action where
  path : String
  kind : Kind
  binding : Option String
  enabled : Bool
  callback : Option Nat
  var : Option Nat
  choices : List Val
deriving DecidableEq, Repr

/-- The observable world state threaded through every operation. -/
structure St where
  actions : List (String × Action)
  vars : List Val
  traces : List TraceRec
  subs : List (String × List TabType)
  keyBindings : List (String × String)
  events : List Event
  warnings : List Warning
  calls : List Nat
  focused : TabType
deriving DecidableEq, Repr

/-- The state at module import time: `_actions` empty, no variables, no
traces, no subscriptions, no bindings, empty logs, no tab focused. -/
def emptySt : St :=
  { actions := [], vars := [], traces := [], subs := [], keyBindings := []
  , events := [], warnings := [], calls := [], focused := none }

/-- Python `path.startswith('/')`. -/
def pyStartsWithSlash (s : String) : Bool :=
  s.data.head? == some '/'

/-- Python `path.endswith('/')` (the last character, read as the head of
the reversed character list). -/
def pyEndsWithSlash (s : String) : Bool :=
  s.data.reverse.head? == some '/'

/-- Python `path.rstrip('/')`: remove every trailing `/`. -/
def pyRstripSlash (s : String) : String :=
  ⟨(s.data.reverse.dropWhile (fun c => c == '/')).reverse⟩

/-- Lookup in the `_actions` ordered dict (`_actions[path]`,
`path in _actions`): first entry with the given key. -/
def lookupA : List (String × Action) → String → Option Action
  | [], _ => none
  | (k, a) :: rest, p => if k = p then some a else lookupA rest p

/-- Assignment to an existing key of the ordered dict: replace the value
of the first entry with that key, keeping its position. -/
def updateActions : List (String × Action) → String → Action → List (String × Action)
  | [], _, _ => []
  | (k, a) :: rest, p, a2 =>
      if k = p then (k, a2) :: rest else (k, a) :: updateActions rest p a2

/-- Body of `Action._var_set_check`: read the current value of the traced
variable (`self.var.get()`); if it is not one of `self.choices`, call
`warnings.warn` with a `RuntimeWarning` naming the action and the value.
Nothing is rolled back and nothing is raised. -/
def var_set_check (st : St) (t : TraceRec) : St :=
  match st.vars.get? t.vid with
  | none => st
  | some v =>
      if v ∈ t.choices then st
      else { st with warnings := st.warnings ++ [⟨t.path, v⟩] }

/-- Run the write traces registered on variable `vid`, given as an
explicit list. Tcl invokes variable traces most-recent-first, so callers
pass the trace list reversed. -/
def runTraceList (st : St) (vid : Nat) : List TraceRec → St
  | [] => st
  | t :: ts =>
      runTraceList (if t.vid = vid then var_set_check st t else st) vid ts

/-- Python `var.set(v)`: store the value, then fire the write traces on
that variable (most recently added first). -/
def varSet (st : St) (vid : Nat) (v : Val) : St :=
  let st1 := { st with vars := st.vars.set vid v }
  runTraceList st1 vid st1.traces.reverse

/-- Python `tkinter.BooleanVar()`: allocate a fresh variable holding
`False`; returns its id (no trace is installed on it yet). -/
def mkBooleanVar (st : St) : Nat × St :=
  (st.vars.length, { st with vars := st.vars ++ [Val.b false] })

/-- Python `tkinter.StringVar()`: allocate a fresh variable holding the
empty string. -/
def mkStringVar (st : St) : Nat × St :=
  (st.vars.length, { st with vars := st.vars ++ [Val.s ("")] })

/-- The `Action.enabled` property setter, acting on the registry entry
for `path` (the Python closure holds the object itself; objects are
identified by their unique path here, since actions are never removed):
when the new value differs from `_enabled`, store it and generate
exactly one `<<ActionEnabled>>` or `<<ActionDisabled>>` event whose data
is the path; otherwise do nothing. -/
def set_enabled (st : St) (path : String) (b : Bool) : St :=
  match lookupA st.actions path with
  | none => st
  | some a =>
      if a.enabled = b then st
      else
        { st with
          actions := updateActions st.actions path { a with enabled := b }
        , events := st.events ++
            [if b then Event.actionEnabled path else Event.actionDisabled path] }

/-- The `enable_or_disable` closure of `_add_any_action`: read the
currently selected tab and assign
`action.enabled = isinstance(tab, actual_tabtypes)` — under the flat
document-type-tag model, membership of the focused tag in the filter. -/
def enable_or_disable (st : St) (path : String) (tts : List TabType) : St :=
  set_enabled st path (decide (st.focused ∈ tts))

/-- Run a list of `<<NotebookTabChanged>>` subscriptions in order. -/
def runSubs (st : St) : List (String × List TabType) → St
  | [] => st
  | (p, tts) :: rest => runSubs (enable_or_disable st p tts) rest

/-- Dispatch of a `<<NotebookTabChanged>>` event: the tab manager now
reports `tab` as selected, and every installed `enable_or_disable`
subscription runs (in installation order, `add=True` bindings append). -/
def notebookTabChanged (st : St) (tab : TabType) : St :=
  runSubs { st with focused := tab } st.subs

/-- What `callback_or_choices` holds: a callback for `command`, the
choice list for `choice`, `None` for `yesno`. -/
inductive CbOrChoices where
  | cb (id : Nat)
  | choices (cs : List Val)
  | none
deriving DecidableEq, Repr

/-- `Action.__init__`: set the common fields (`_enabled` starts `True`)
and the kind-specific ones; the `assert` statements guarding the kinds
become `assertionError` results (all entry points satisfy them). For a
`choice` action the constructor also installs the write trace on its
variable; the caller `add_any_action` records that trace. -/
def Action.init (path : String) (kind : Kind) (coc : CbOrChoices)
    (binding : Option String) (var : Option Nat) : Except Err Action :=
  match kind with
  | Kind.command =>
      match coc with
      | CbOrChoices.cb c =>
          Except.ok
            { path := path, kind := kind, binding := binding, enabled := true
            , callback := some c, var := var, choices := [] }
      | _ => Except.error Err.assertionError
  | Kind.choice =>
      match coc, var with
      | CbOrChoices.choices cs, some _ =>
          Except.ok
            { path := path, kind := kind, binding := binding, enabled := true
            , callback := none, var := var, choices := cs }
      | _, _ => Except.error Err.assertionError
  | Kind.yesno =>
      match var with
      | some _ =>
          Except.ok
            { path := path, kind := kind, binding := binding, enabled := true
            , callback := none, var := var, choices := [] }
      | none => Except.error Err.assertionError

/-- Success path of `_add_any_action`, after the two checks passed and
the `Action` was constructed: record the trace installed by
`Action.__init__` for a `choice` action (choice actions always carry a
variable, asserted in the constructor), store the action in `_actions`,
generate `<<NewAction>>`, then for a `tabtypes` filter run
`enable_or_disable()` once now and subscribe it to
`<<NotebookTabChanged>>`, and finally install the keyboard binding. -/
def finishAdd (st : St) (path : String) (kind : Kind) (action : Action)
    (tabtypes : Option (List TabType)) (binding : Option String) : St :=
  let st1 := { st with actions := st.actions ++ [(path, action)] }
  let st2 :=
    if kind = Kind.choice then
      { st1 with traces := st1.traces ++ [⟨path, action.var.getD 0, action.choices⟩] }
    else st1
  let st3 := { st2 with events := st2.events ++ [Event.newAction path] }
  let st4 :=
    match tabtypes with
    | Option.none => st3
    | some tts =>
        let st5 := enable_or_disable st3 path tts
        { st5 with subs := st5.subs ++ [(path, tts)] }
  match binding with
  | Option.none => st4
  | some bnd => { st4 with keyBindings := st4.keyBindings ++ [(bnd, path)] }

/-- `_add_any_action`: reject a path that starts or ends with `/`
(`ValueError`), reject an already registered path (`RuntimeError`),
otherwise construct the action and perform the success effects. The
`None ↦ type(None)` rewrite of `tabtypes` is the identity under the flat
tag model. On an error, the state passed in is returned as is — effects
the callers performed before calling the funnel persist, as in Python. -/
def add_any_action (st : St) (path : String) (kind : Kind) (coc : CbOrChoices)
    (binding : Option String) (var : Option Nat)
    (tabtypes : Option (List TabType)) : St × Option Err :=
  if pyStartsWithSlash path || pyEndsWithSlash path then
    (st, some InvalidPathError)
  else if (lookupA st.actions path).isSome then
    (st, some DuplicatePathError)
  else
    match Action.init path kind coc binding var with
    | Except.error e => (st, some e)
    | Except.ok action => (finishAdd st path kind action tabtypes binding, none)

/-- `add_command(path, callback, keyboard_binding=None, tabtypes=None)`. -/
def add_command (st : St) (path : String) (callback : Nat)
    (keyboard_binding : Option String)
    (tabtypes : Option (List TabType)) : St × Option Err :=
  add_any_action st path Kind.command (CbOrChoices.cb callback)
    keyboard_binding none tabtypes

/-- `add_yesno(path, default=None, keyboard_binding=None, var=None,
tabtypes=None)`: with no `var`, a `default` is required (`TypeError`
otherwise) and a fresh `BooleanVar` is created and set to it; with a
`var`, a given `default` is written into it. Note that the write to a
caller-supplied `var` happens before `_add_any_action` runs its
checks. -/
def add_yesno (st : St) (path : String) (default : Option Bool)
    (keyboard_binding : Option String) (var : Option Nat)
    (tabtypes : Option (List TabType)) : St × Option Err :=
  match var with
  | Option.none =>
      match default with
      | Option.none => (st, some ConfigurationError)
      | some d =>
          let (vid, st1) := mkBooleanVar st
          let st2 := varSet st1 vid (Val.b d)
          add_any_action st2 path Kind.yesno CbOrChoices.none
            keyboard_binding (some vid) tabtypes
  | some vid =>
      let st1 :=
        match default with
        | some d => varSet st vid (Val.b d)
        | Option.none => st
      add_any_action st1 path Kind.yesno CbOrChoices.none
        keyboard_binding (some vid) tabtypes

/-- `add_choice(path, choices, default=None, var=None, tabtypes=None)`:
with no `var`, `default` falls back to `choices[0]` (`IndexError` on an
empty list) and must be in `choices`, and a fresh `StringVar` is created
and set to it; with a `var`, its current value must be in `choices`, and
a given `default` must be too and is written into it (again before
`_add_any_action` runs its checks). A choice action never gets a
keyboard binding. -/
def add_choice (st : St) (path : String) (choices : List Val)
    (default : Option Val) (var : Option Nat)
    (tabtypes : Option (List TabType)) : St × Option Err :=
  match var with
  | Option.none =>
      match default with
      | Option.none =>
          match choices.head? with
          | Option.none => (st, some Err.indexError)
          | some d =>
              let (vid, st1) := mkStringVar st
              let st2 := varSet st1 vid d
              add_any_action st2 path Kind.choice (CbOrChoices.choices choices)
                none (some vid) tabtypes
      | some d =>
          if d ∈ choices then
            let (vid, st1) := mkStringVar st
            let st2 := varSet st1 vid d
            add_any_action st2 path Kind.choice (CbOrChoices.choices choices)
              none (some vid) tabtypes
          else (st, some InvalidChoiceDefault)
  | some vid =>
      if st.vars.getD vid (Val.s ("")) ∈ choices then
        match default with
        | some d =>
            if d ∈ choices then
              let st1 := varSet st vid d
              add_any_action st1 path Kind.choice (CbOrChoices.choices choices)
                none (some vid) tabtypes
            else (st, some InvalidChoiceDefault)
        | Option.none =>
            add_any_action st path Kind.choice (CbOrChoices.choices choices)
              none (some vid) tabtypes
      else (st, some InvalidChoiceVar)

/-- `get_action(action_path)`: `_actions[action_path.rstrip('/')]`,
raising `KeyError` when the stripped path is not a key. -/
def get_action (st : St) (action_path : String) : Except Err Action :=
  match lookupA st.actions (pyRstripSlash action_path) with
  | some a => Except.ok a
  | none => Except.error (Err.keyError (pyRstripSlash action_path))

/-- The `bind_callback` closure installed for a keyboard binding: if the
action is enabled, perform the kind-specific effect (`command`: invoke
the callback; `yesno`: `var.set(not var.get())`) and return the string
break, which stops further processing of the input event; if disabled,
return `None`, which lets the event propagate as if no handler were
installed. The closure holds the action object; here it is identified by
its unique path. -/
def bind_callback (st : St) (path : String) : St × Option String :=
  match lookupA st.actions path with
  | Option.none => (st, none)
  | some action =>
      if action.enabled then
        let st1 :=
          if action.kind = Kind.command then
            { st with calls := st.calls ++ [action.callback.getD 0] }
          else st
        let st2 :=
          if action.kind = Kind.yesno then
            match action.var with
            | some vid =>
                match st1.vars.get? vid with
                | some (Val.b x) => varSet st1 vid (Val.b (!x))
                | _ => st1
            | Option.none => st1
          else st1
        (st2, some ("break"))
      else (st, none)

/-- Observation: the path and kind of the action `get_action` returns. -/
def getPK (st : St) (p : String) : Option (String × Kind) :=
  (get_action st p).toOption.map (fun a => (a.path, a.kind))

/-- Observation: the current value of the variable behind the action
registered at `path`. -/
def actionValue (st : St) (path : String) : Option Val :=
  match lookupA st.actions path with
  | some a =>
      match a.var with
      | some vid => st.vars.get? vid
      | Option.none => none
  | Option.none => none

/-- Observation: is this event an enabled/disabled notification carrying
the given path. -/
def isEnableEventFor (path : String) : Event → Bool
  | Event.actionEnabled p => p == path
  | Event.actionDisabled p => p == path
  | _ => false

/-- The argument precheck of `add_yesno` (done before the funnel):
usable iff a `default` or a `var` is given. -/
def yesnoArgsOK (default : Option Bool) (var : Option Nat) : Bool :=
  default.isSome || var.isSome

/-- The argument prechecks of `add_choice` (done before the funnel):
with no `var`, a given `default` must be in `choices` and an omitted one
needs `choices` non-empty; with a `var`, its current value must be in
`choices`, and so must a given `default`. -/
def choiceArgsOK (st : St) (choices : List Val) (default : Option Val)
    (var : Option Nat) : Bool :=
  match var with
  | Option.none =>
      match default with
      | Option.none => !choices.isEmpty
      | some d => decide (d ∈ choices)
  | some vid =>
      decide (st.vars.getD vid (Val.s ("")) ∈ choices) &&
        (match default with
         | Option.none => true
         | some d => decide (d ∈ choices))

/-- Demo state: one command action registered at path `a`. -/
def demoCmdSt : St := (add_command emptySt ("a") 7 none none).1

/-- The action object stored in `demoCmdSt`. -/
def demoAction : Action :=
  { path := ("a"), kind := Kind.command, binding := none, enabled := true
  , callback := some 7, var := none, choices := [] }

/-- Demo state for C2: `demoCmdSt` plus one caller-held boolean cell. -/
def c2CellSt : St := { demoCmdSt with vars := [Val.b false] }

/-- The duplicate registration attempt of claim C2: path `a` again, with
the caller-supplied cell (id 0) and a default of `True`. -/
def c2Res : St × Option Err :=
  add_yesno c2CellSt ("a") (some true) none (some 0) none

/-- Demo state: one command action registered at path `a/b`. -/
def slashSt : St := (add_command emptySt ("a/b") 9 none none).1

/-- The action object stored in `slashSt`. -/
def slashAction : Action :=
  { path := ("a/b"), kind := Kind.command, binding := none, enabled := true
  , callback := some 9, var := none, choices := [] }

/-- Demo state: a yesno action at path `y` with a keyboard binding; its
fresh `BooleanVar` is cell 0 and holds `False`. -/
def yesnoSt : St :=
  (add_yesno emptySt ("y") (some false) (some ("<Control-y>")) none none).1

/-- The action object stored in `yesnoSt`. -/
def yesnoAction : Action :=
  { path := ("y"), kind := Kind.yesno, binding := some ("<Control-y>")
  , enabled := true, callback := none, var := some 0, choices := [] }

/-- Demo state: a choice action at path `p` with choices `a`, `b`; its
fresh `StringVar` is cell 0 and holds `a`. -/
def choiceSt : St :=
  (add_choice emptySt ("p") [Val.s ("a"), Val.s ("b")] none none none).1

/-- Demo state: a command action at path `p` with a document-type filter
for tag 5; no document is focused, so it starts disabled. -/
def filteredSt : St := (add_command emptySt ("p") 3 none (some [some 5])).1

/-- The action object stored in `filteredSt`. -/
def filteredAction : Action :=
  { path := ("p"), kind := Kind.command, binding := none, enabled := false
  , callback := some 3, var := none, choices := [] }

/-- Holds when a second state has the same registry-owned components as a
first one: the action mapping, the event log, the subscriptions, the
traces, the key bindings, the callback log and the focused tab. (The
variable heap and the warning log are deliberately not included.) -/
def registryUntouched (st st2 : St) : Prop :=
  st2.actions = st.actions ∧ st2.events = st.events ∧ st2.subs = st.subs ∧
    st2.traces = st.traces ∧ st2.keyBindings = st.keyBindings ∧
    st2.calls = st.calls ∧ st2.focused = st.focused

instance (st st2 : St) : Decidable (registryUntouched st st2) := by
  unfold registryUntouched
  infer_instance

theorem registryUntouched_refl (st : St) : registryUntouched st st :=
  ⟨rfl, rfl, rfl, rfl, rfl, rfl, rfl⟩

theorem dropWhileSlash_head_ne (l : List Char) (h : l.head? ≠ some '/') :
    List.dropWhile (fun c => c == '/') l = l := by
  cases l with
  | nil => rfl
  | cons c cs =>
    have hc : (c == '/') = false := by
      cases hcc : c == '/' with
      | true => exact absurd (by simp [beq_iff_eq.mp hcc]) h
      | false => rfl
    simp [List.dropWhile, hc]

theorem dropWhileSlash_replicate (n : Nat) (l : List Char) :
    List.dropWhile (fun c => c == '/') (List.replicate n '/' ++ l)
      = List.dropWhile (fun c => c == '/') l := by
  induction n with
  | zero => rfl
  | succ m ih => simp [List.replicate_succ, List.dropWhile, ih]

theorem pyRstripSlash_eq_self (s : String) (h : pyEndsWithSlash s = false) :
    pyRstripSlash s = s := by
  have hh : s.data.reverse.head? ≠ some '/' := by
    intro hc
    simp [pyEndsWithSlash, hc] at h
  show (⟨(s.data.reverse.dropWhile (fun c => c == '/')).reverse⟩ : String) = s
  rw [dropWhileSlash_head_ne s.data.reverse hh, List.reverse_reverse]

theorem pyRstripSlash_append_slashes (s : String) (n : Nat)
    (h : pyEndsWithSlash s = false) :
    pyRstripSlash ⟨s.data ++ List.replicate n '/'⟩ = s := by
  have hh : s.data.reverse.head? ≠ some '/' := by
    intro hc
    simp [pyEndsWithSlash, hc] at h
  show (⟨((s.data ++ List.replicate n '/').reverse.dropWhile
      (fun c => c == '/')).reverse⟩ : String) = s
  rw [List.reverse_append, List.reverse_replicate,
    dropWhileSlash_replicate, dropWhileSlash_head_ne s.data.reverse hh,
    List.reverse_reverse]

theorem lookupA_append_right (l : List (String × Action)) (p : String)
    (a : Action) (h : lookupA l p = none) :
    lookupA (l ++ [(p, a)]) p = some a := by
  induction l with
  | nil => simp [lookupA]
  | cons kv rest ih =>
    obtain ⟨k, b⟩ := kv
    by_cases hk : k = p
    · simp [lookupA, hk] at h
    · simp only [lookupA, hk, if_false, List.cons_append] at h ⊢
      exact ih h

theorem lookupA_update_self (l : List (String × Action)) (p : String)
    (a a2 : Action) (h : lookupA l p = some a) :
    lookupA (updateActions l p a2) p = some a2 := by
  induction l with
  | nil => simp [lookupA] at h
  | cons kv rest ih =>
    obtain ⟨k, b⟩ := kv
    by_cases hk : k = p
    · simp [lookupA, updateActions, hk]
    · simp only [lookupA, updateActions, hk, if_false] at h ⊢
      exact ih h

theorem lookupA_update_ne (l : List (String × Action)) (p q : String)
    (a2 : Action) (h : q ≠ p) :
    lookupA (updateActions l p a2) q = lookupA l q := by
  induction l with
  | nil => rfl
  | cons kv rest ih =>
    obtain ⟨k, b⟩ := kv
    by_cases hk : k = p
    · subst hk
      have hq : ¬(k = q) := fun hq => h hq.symm
      simp [lookupA, updateActions, hq]
    · simp only [updateActions, hk, if_false, lookupA]
      by_cases hq : k = q
      · simp [hq]
      · simp only [hq, if_false]
        exact ih

theorem get?_set_self (l : List Val) :
    ∀ (i : Nat) (v : Val), i < l.length → (l.set i v).get? i = some v := by
  induction l with
  | nil => intro i v h; simp at h
  | cons a as ih =>
    intro i v h
    cases i with
    | zero => rfl
    | succ n =>
      simp only [List.set, List.get?]
      exact ih n v (by simpa using h)

theorem set_enabled_cases (st : St) (path : String) (b : Bool) :
    set_enabled st path b = st ∨
      ∃ a, lookupA st.actions path = some a ∧ a.enabled ≠ b ∧
        set_enabled st path b =
          { st with
            actions := updateActions st.actions path { a with enabled := b }
          , events := st.events ++
              [if b then Event.actionEnabled path else Event.actionDisabled path] } := by
  unfold set_enabled
  cases hl : lookupA st.actions path with
  | none => exact Or.inl rfl
  | some a =>
    by_cases he : a.enabled = b
    · simp only [he, if_pos rfl]
      exact Or.inl rfl
    · simp only [if_neg he]
      exact Or.inr ⟨a, rfl, he, rfl⟩

@[simp] theorem set_enabled_vars (st : St) (path : String) (b : Bool) :
    (set_enabled st path b).vars = st.vars := by
  rcases set_enabled_cases st path b with h | ⟨a, _, _, h⟩ <;> rw [h]

@[simp] theorem set_enabled_traces (st : St) (path : String) (b : Bool) :
    (set_enabled st path b).traces = st.traces := by
  rcases set_enabled_cases st path b with h | ⟨a, _, _, h⟩ <;> rw [h]

@[simp] theorem set_enabled_subs (st : St) (path : String) (b : Bool) :
    (set_enabled st path b).subs = st.subs := by
  rcases set_enabled_cases st path b with h | ⟨a, _, _, h⟩ <;> rw [h]

@[simp] theorem set_enabled_keyBindings (st : St) (path : String) (b : Bool) :
    (set_enabled st path b).keyBindings = st.keyBindings := by
  rcases set_enabled_cases st path b with h | ⟨a, _, _, h⟩ <;> rw [h]

@[simp] theorem set_enabled_warnings (st : St) (path : String) (b : Bool) :
    (set_enabled st path b).warnings = st.warnings := by
  rcases set_enabled_cases st path b with h | ⟨a, _, _, h⟩ <;> rw [h]

@[simp] theorem set_enabled_calls (st : St) (path : String) (b : Bool) :
    (set_enabled st path b).calls = st.calls := by
  rcases set_enabled_cases st path b with h | ⟨a, _, _, h⟩ <;> rw [h]

@[simp] theorem set_enabled_focused (st : St) (path : String) (b : Bool) :
    (set_enabled st path b).focused = st.focused := by
  rcases set_enabled_cases st path b with h | ⟨a, _, _, h⟩ <;> rw [h]

theorem enabled_set_eq_self (a : Action) (b : Bool) (h : a.enabled = b) :
    ({ a with enabled := b } : Action) = a := by
  cases a
  simp_all

theorem set_enabled_eq (st : St) (path : String) (a : Action) (b : Bool)
    (h : lookupA st.actions path = some a) :
    set_enabled st path b =
      (if a.enabled = b then st
       else
         { st with
           actions := updateActions st.actions path { a with enabled := b }
         , events := st.events ++
             [if b then Event.actionEnabled path else Event.actionDisabled path] }) := by
  unfold set_enabled
  rw [h]

theorem set_enabled_lookup (st : St) (path : String) (a : Action) (b : Bool)
    (h : lookupA st.actions path = some a) :
    lookupA (set_enabled st path b).actions path = some { a with enabled := b } := by
  rw [set_enabled_eq st path a b h]
  by_cases he : a.enabled = b
  · rw [if_pos he, h, enabled_set_eq_self a b he]
  · rw [if_neg he]
    exact lookupA_update_self st.actions path a _ h

theorem set_enabled_lookup_ne (st : St) (path q : String) (b : Bool)
    (h : q ≠ path) :
    lookupA (set_enabled st path b).actions q = lookupA st.actions q := by
  cases hl : lookupA st.actions path with
  | none =>
    unfold set_enabled
    rw [hl]
  | some a =>
    rw [set_enabled_eq st path a b hl]
    by_cases he : a.enabled = b
    · rw [if_pos he]
    · rw [if_neg he]
      exact lookupA_update_ne st.actions path q _ h

theorem set_enabled_events (st : St) (path : String) (a : Action) (b : Bool)
    (h : lookupA st.actions path = some a) :
    (set_enabled st path b).events = st.events ++
      (if a.enabled = b then []
       else [if b then Event.actionEnabled path else Event.actionDisabled path]) := by
  rw [set_enabled_eq st path a b h]
  by_cases he : a.enabled = b
  · simp [he]
  · simp [he]

theorem set_enabled_eventsFor_ne (st : St) (path q : String) (b : Bool)
    (h : path ≠ q) :
    (set_enabled st path b).events.filter (isEnableEventFor q)
      = st.events.filter (isEnableEventFor q) := by
  cases hl : lookupA st.actions path with
  | none =>
    unfold set_enabled
    rw [hl]
  | some a =>
    rw [set_enabled_eq st path a b hl]
    by_cases he : a.enabled = b
    · rw [if_pos he]
    · rw [if_neg he]
      simp only [List.filter_append]
      have hpq : (path == q) = false := beq_eq_false_iff_ne.mpr h
      cases b <;> simp [isEnableEventFor, hpq]

theorem var_set_check_eq_none (st : St) (t : TraceRec)
    (h : st.vars.get? t.vid = none) : var_set_check st t = st := by
  unfold var_set_check
  rw [h]

theorem var_set_check_eq (st : St) (t : TraceRec) (v : Val)
    (h : st.vars.get? t.vid = some v) :
    var_set_check st t =
      (if v ∈ t.choices then st
       else { st with warnings := st.warnings ++ [⟨t.path, v⟩] }) := by
  unfold var_set_check
  rw [h]

theorem var_set_check_cases (st : St) (t : TraceRec) :
    var_set_check st t = st ∨
      ∃ v, var_set_check st t = { st with warnings := st.warnings ++ [⟨t.path, v⟩] } := by
  cases hv : st.vars.get? t.vid with
  | none => exact Or.inl (var_set_check_eq_none st t hv)
  | some v =>
    rw [var_set_check_eq st t v hv]
    by_cases hm : v ∈ t.choices
    · rw [if_pos hm]
      exact Or.inl rfl
    · rw [if_neg hm]
      exact Or.inr ⟨v, rfl⟩

@[simp] theorem var_set_check_actions (st : St) (t : TraceRec) :
    (var_set_check st t).actions = st.actions := by
  rcases var_set_check_cases st t with h | ⟨v, h⟩ <;> rw [h]

@[simp] theorem var_set_check_vars (st : St) (t : TraceRec) :
    (var_set_check st t).vars = st.vars := by
  rcases var_set_check_cases st t with h | ⟨v, h⟩ <;> rw [h]

@[simp] theorem var_set_check_traces (st : St) (t : TraceRec) :
    (var_set_check st t).traces = st.traces := by
  rcases var_set_check_cases st t with h | ⟨v, h⟩ <;> rw [h]

@[simp] theorem var_set_check_subs (st : St) (t : TraceRec) :
    (var_set_check st t).subs = st.subs := by
  rcases var_set_check_cases st t with h | ⟨v, h⟩ <;> rw [h]

@[simp] theorem var_set_check_keyBindings (st : St) (t : TraceRec) :
    (var_set_check st t).keyBindings = st.keyBindings := by
  rcases var_set_check_cases st t with h | ⟨v, h⟩ <;> rw [h]

@[simp] theorem var_set_check_events (st : St) (t : TraceRec) :
    (var_set_check st t).events = st.events := by
  rcases var_set_check_cases st t with h | ⟨v, h⟩ <;> rw [h]

@[simp] theorem var_set_check_calls (st : St) (t : TraceRec) :
    (var_set_check st t).calls = st.calls := by
  rcases var_set_check_cases st t with h | ⟨v, h⟩ <;> rw [h]

@[simp] theorem var_set_check_focused (st : St) (t : TraceRec) :
    (var_set_check st t).focused = st.focused := by
  rcases var_set_check_cases st t with h | ⟨v, h⟩ <;> rw [h]

@[simp] theorem runTraceList_actions (ts : List TraceRec) :
    ∀ (st : St) (vid : Nat), (runTraceList st vid ts).actions = st.actions := by
  induction ts with
  | nil => intro st vid; rfl
  | cons t rest ih =>
    intro st vid
    unfold runTraceList
    rw [ih]
    split <;> simp

@[simp] theorem runTraceList_vars (ts : List TraceRec) :
    ∀ (st : St) (vid : Nat), (runTraceList st vid ts).vars = st.vars := by
  induction ts with
  | nil => intro st vid; rfl
  | cons t rest ih =>
    intro st vid
    unfold runTraceList
    rw [ih]
    split <;> simp

@[simp] theorem runTraceList_traces (ts : List TraceRec) :
    ∀ (st : St) (vid : Nat), (runTraceList st vid ts).traces = st.traces := by
  induction ts with
  | nil => intro st vid; rfl
  | cons t rest ih =>
    intro st vid
    unfold runTraceList
    rw [ih]
    split <;> simp

@[simp] theorem runTraceList_subs (ts : List TraceRec) :
    ∀ (st : St) (vid : Nat), (runTraceList st vid ts).subs = st.subs := by
  induction ts with
  | nil => intro st vid; rfl
  | cons t rest ih =>
    intro st vid
    unfold runTraceList
    rw [ih]
    split <;> simp

@[simp] theorem runTraceList_keyBindings (ts : List TraceRec) :
    ∀ (st : St) (vid : Nat), (runTraceList st vid ts).keyBindings = st.keyBindings := by
  induction ts with
  | nil => intro st vid; rfl
  | cons t rest ih =>
    intro st vid
    unfold runTraceList
    rw [ih]
    split <;> simp

@[simp] theorem runTraceList_events (ts : List TraceRec) :
    ∀ (st : St) (vid : Nat), (runTraceList st vid ts).events = st.events := by
  induction ts with
  | nil => intro st vid; rfl
  | cons t rest ih =>
    intro st vid
    unfold runTraceList
    rw [ih]
    split <;> simp

@[simp] theorem runTraceList_calls (ts : List TraceRec) :
    ∀ (st : St) (vid : Nat), (runTraceList st vid ts).calls = st.calls := by
  induction ts with
  | nil => intro st vid; rfl
  | cons t rest ih =>
    intro st vid
    unfold runTraceList
    rw [ih]
    split <;> simp

@[simp] theorem runTraceList_focused (ts : List TraceRec) :
    ∀ (st : St) (vid : Nat), (runTraceList st vid ts).focused = st.focused := by
  induction ts with
  | nil => intro st vid; rfl
  | cons t rest ih =>
    intro st vid
    unfold runTraceList
    rw [ih]
    split <;> simp

@[simp] theorem varSet_actions (st : St) (vid : Nat) (v : Val) :
    (varSet st vid v).actions = st.actions := by
  unfold varSet
  simp

@[simp] theorem varSet_vars (st : St) (vid : Nat) (v : Val) :
    (varSet st vid v).vars = st.vars.set vid v := by
  unfold varSet
  simp

@[simp] theorem varSet_traces (st : St) (vid : Nat) (v : Val) :
    (varSet st vid v).traces = st.traces := by
  unfold varSet
  simp

@[simp] theorem varSet_subs (st : St) (vid : Nat) (v : Val) :
    (varSet st vid v).subs = st.subs := by
  unfold varSet
  simp

@[simp] theorem varSet_keyBindings (st : St) (vid : Nat) (v : Val) :
    (varSet st vid v).keyBindings = st.keyBindings := by
  unfold varSet
  simp

@[simp] theorem varSet_events (st : St) (vid : Nat) (v : Val) :
    (varSet st vid v).events = st.events := by
  unfold varSet
  simp

@[simp] theorem varSet_calls (st : St) (vid : Nat) (v : Val) :
    (varSet st vid v).calls = st.calls := by
  unfold varSet
  simp

@[simp] theorem varSet_focused (st : St) (vid : Nat) (v : Val) :
    (varSet st vid v).focused = st.focused := by
  unfold varSet
  simp

@[simp] theorem runSubs_vars (l : List (String × List TabType)) :
    ∀ st : St, (runSubs st l).vars = st.vars := by
  induction l with
  | nil => intro st; rfl
  | cons s rest ih =>
    intro st
    obtain ⟨p, tts⟩ := s
    unfold runSubs
    rw [ih]
    simp [enable_or_disable]

@[simp] theorem runSubs_subs (l : List (String × List TabType)) :
    ∀ st : St, (runSubs st l).subs = st.subs := by
  induction l with
  | nil => intro st; rfl
  | cons s rest ih =>
    intro st
    obtain ⟨p, tts⟩ := s
    unfold runSubs
    rw [ih]
    simp [enable_or_disable]

@[simp] theorem runSubs_focused (l : List (String × List TabType)) :
    ∀ st : St, (runSubs st l).focused = st.focused := by
  induction l with
  | nil => intro st; rfl
  | cons s rest ih =>
    intro st
    obtain ⟨p, tts⟩ := s
    unfold runSubs
    rw [ih]
    simp [enable_or_disable]

theorem runSubs_no_entry (l : List (String × List TabType)) :
    ∀ (st : St) (path : String),
      l.filter (fun s => decide (s.1 = path)) = [] →
      lookupA (runSubs st l).actions path = lookupA st.actions path ∧
        (runSubs st l).events.filter (isEnableEventFor path)
          = st.events.filter (isEnableEventFor path) := by
  induction l with
  | nil => intro st path _; exact ⟨rfl, rfl⟩
  | cons s rest ih =>
    intro st path hf
    obtain ⟨p, tts⟩ := s
    have hp : p ≠ path := by
      intro hpp
      simp [List.filter, hpp] at hf
    have hf2 : rest.filter (fun s => decide (s.1 = path)) = [] := by
      simpa [List.filter, hp] using hf
    unfold runSubs
    obtain ⟨ih1, ih2⟩ := ih (enable_or_disable st p tts) path hf2
    refine ⟨?_, ?_⟩
    · rw [ih1]
      exact set_enabled_lookup_ne st p path _ (fun h => hp h.symm)
    · rw [ih2]
      exact set_enabled_eventsFor_ne st p path _ hp

theorem runSubs_single_entry (l : List (String × List TabType)) :
    ∀ (st : St) (path : String) (tts : List TabType) (a : Action),
      l.filter (fun s => decide (s.1 = path)) = [(path, tts)] →
      lookupA st.actions path = some a →
      lookupA (runSubs st l).actions path
          = some { a with enabled := decide (st.focused ∈ tts) } ∧
        (runSubs st l).events.filter (isEnableEventFor path)
          = st.events.filter (isEnableEventFor path) ++
            (if a.enabled = decide (st.focused ∈ tts) then []
             else if st.focused ∈ tts then [Event.actionEnabled path]
             else [Event.actionDisabled path]) := by
  induction l with
  | nil => intro st path tts a hf; simp [List.filter] at hf
  | cons s rest ih =>
    intro st path tts a hf ha
    obtain ⟨p, ts⟩ := s
    by_cases hp : p = path
    · subst hp
      have hf1 : ts = tts ∧ rest.filter (fun s => decide (s.1 = p)) = [] := by
        have := hf
        simp only [List.filter, decide_True] at this
        exact ⟨(Prod.mk.injEq _ _ _ _ |>.mp (List.cons_eq_cons.mp this).1).2,
          (List.cons_eq_cons.mp this).2⟩
      obtain ⟨hts, hrest⟩ := hf1
      subst hts
      unfold runSubs
      have hlook := set_enabled_lookup st p a (decide (st.focused ∈ ts)) ha
      have hev := set_enabled_events st p a (decide (st.focused ∈ ts)) ha
      obtain ⟨n1, n2⟩ := runSubs_no_entry rest (enable_or_disable st p ts) p hrest
      refine ⟨?_, ?_⟩
      · rw [n1]
        exact hlook
      · rw [n2]
        unfold enable_or_disable
        rw [hev, List.filter_append]
        by_cases he : a.enabled = decide (st.focused ∈ ts)
        · simp [he]
        · rw [if_neg he, if_neg he]
          have hself : (p == p) = true := beq_self_eq_true p
          by_cases hm : st.focused ∈ ts
          · simp [hm, isEnableEventFor, List.filter]
          · simp [hm, isEnableEventFor, List.filter]
    · have hf2 : rest.filter (fun s => decide (s.1 = path)) = [(path, tts)] := by
        simpa [List.filter, hp] using hf
      unfold runSubs
      have hlook : lookupA (enable_or_disable st p ts).actions path = some a := by
        rw [← ha]
        exact set_enabled_lookup_ne st p path _ (fun h => hp h.symm)
      obtain ⟨i1, i2⟩ := ih (enable_or_disable st p ts) path tts a hf2 hlook
      have hfoc : (enable_or_disable st p ts).focused = st.focused := by
        simp [enable_or_disable]
      refine ⟨?_, ?_⟩
      · rw [i1, hfoc]
      · rw [i2, hfoc]
        unfold enable_or_disable
        rw [set_enabled_eventsFor_ne st p path _ hp]

theorem finishAdd_vars (st : St) (path : String) (kind : Kind) (action : Action)
    (tabtypes : Option (List TabType)) (binding : Option String) :
    (finishAdd st path kind action tabtypes binding).vars = st.vars := by
  by_cases hk : kind = Kind.choice <;> cases binding <;> cases tabtypes <;>
    simp [finishAdd, hk, enable_or_disable]

theorem finishAdd_focused (st : St) (path : String) (kind : Kind) (action : Action)
    (tabtypes : Option (List TabType)) (binding : Option String) :
    (finishAdd st path kind action tabtypes binding).focused = st.focused := by
  by_cases hk : kind = Kind.choice <;> cases binding <;> cases tabtypes <;>
    simp [finishAdd, hk, enable_or_disable]

theorem finishAdd_subs (st : St) (path : String) (kind : Kind) (action : Action)
    (tabtypes : Option (List TabType)) (binding : Option String) :
    (finishAdd st path kind action tabtypes binding).subs =
      st.subs ++
        (match tabtypes with
         | Option.none => []
         | some tts => [(path, tts)]) := by
  by_cases hk : kind = Kind.choice <;> cases binding <;> cases tabtypes <;>
    simp [finishAdd, hk, enable_or_disable]

theorem finishAdd_lookup (st : St) (path : String) (kind : Kind) (action : Action)
    (tabtypes : Option (List TabType)) (binding : Option String)
    (h0 : lookupA st.actions path = none) (ha : action.enabled = true) :
    lookupA (finishAdd st path kind action tabtypes binding).actions path =
      some { action with enabled :=
        (match tabtypes with
         | Option.none => true
         | some tts => decide (st.focused ∈ tts)) } := by
  have happ : lookupA (st.actions ++ [(path, action)]) path = some action :=
    lookupA_append_right st.actions path action h0
  by_cases hk : kind = Kind.choice <;> cases binding <;> cases tabtypes <;>
      simp only [finishAdd, hk, if_true, if_false, ite_true, ite_false] <;>
    first
      | (rw [happ, enabled_set_eq_self action true ha])
      | (exact set_enabled_lookup _ path action _ happ)

theorem finishAdd_events (st : St) (path : String) (kind : Kind) (action : Action)
    (tabtypes : Option (List TabType)) (binding : Option String)
    (h0 : lookupA st.actions path = none) (ha : action.enabled = true) :
    (finishAdd st path kind action tabtypes binding).events =
      st.events ++ [Event.newAction path] ++
        (match tabtypes with
         | Option.none => []
         | some tts => if st.focused ∈ tts then [] else [Event.actionDisabled path]) := by
  have happ : lookupA (st.actions ++ [(path, action)]) path = some action :=
    lookupA_append_right st.actions path action h0
  cases tabtypes with
  | none =>
    by_cases hk : kind = Kind.choice <;> cases binding <;> simp [finishAdd, hk]
  | some tts =>
    have key : ∀ st3 : St, st3.actions = st.actions ++ [(path, action)] →
        st3.events = st.events ++ [Event.newAction path] →
        st3.focused = st.focused →
        (enable_or_disable st3 path tts).events =
          st.events ++ [Event.newAction path] ++
            (if st.focused ∈ tts then [] else [Event.actionDisabled path]) := by
      intro st3 h3a h3e h3f
      unfold enable_or_disable
      have h3 : lookupA st3.actions path = some action := by
        rw [h3a]
        exact happ
      rw [set_enabled_events st3 path action _ h3, h3e, h3f, ha]
      by_cases hm : st.focused ∈ tts
      · simp [hm]
      · simp [hm]
    by_cases hk : kind = Kind.choice <;> cases binding <;>
        simp only [finishAdd, hk, if_true, if_false, ite_true, ite_false] <;>
      exact key _ rfl rfl rfl

theorem init_ok_fields {path : String} {kind : Kind} {coc : CbOrChoices}
    {binding : Option String} {var : Option Nat} {a : Action}
    (h : Action.init path kind coc binding var = Except.ok a) :
    a.path = path ∧ a.kind = kind ∧ a.enabled = true := by
  cases kind <;> cases coc <;> cases var <;> simp [Action.init] at h <;>
    simp [← h]

theorem add_any_action_ok (st st2 : St) (path : String) (kind : Kind)
    (coc : CbOrChoices) (binding : Option String) (var : Option Nat)
    (tabtypes : Option (List TabType))
    (h : add_any_action st path kind coc binding var tabtypes = (st2, none)) :
    pyStartsWithSlash path = false ∧ pyEndsWithSlash path = false ∧
      lookupA st.actions path = none ∧
      ∃ action, Action.init path kind coc binding var = Except.ok action ∧
        st2 = finishAdd st path kind action tabtypes binding := by
  unfold add_any_action at h
  by_cases h1 : (pyStartsWithSlash path || pyEndsWithSlash path) = true
  · rw [if_pos h1] at h
    simp at h
  · rw [if_neg h1] at h
    have hS : pyStartsWithSlash path = false := by
      rcases Bool.or_eq_false_iff.mp (Bool.not_eq_true _ |>.mp h1) with ⟨hs, _⟩
      exact hs
    have hE : pyEndsWithSlash path = false := by
      rcases Bool.or_eq_false_iff.mp (Bool.not_eq_true _ |>.mp h1) with ⟨_, he⟩
      exact he
    by_cases h2 : ((lookupA st.actions path).isSome = true)
    · rw [if_pos h2] at h
      simp at h
    · rw [if_neg h2] at h
      have hL : lookupA st.actions path = none :=
        Option.not_isSome_iff_eq_none.mp h2
      cases hi : Action.init path kind coc binding var with
      | error e =>
        rw [hi] at h
        simp at h
      | ok action =>
        rw [hi] at h
        simp only [Prod.mk.injEq] at h
        exact ⟨hS, hE, hL, action, rfl, h.1.symm⟩

theorem add_any_action_getPK (st st2 : St) (path : String) (kind : Kind)
    (coc : CbOrChoices) (binding : Option String) (var : Option Nat)
    (tabtypes : Option (List TabType))
    (h : add_any_action st path kind coc binding var tabtypes = (st2, none)) :
    getPK st2 path = some (path, kind) := by
  obtain ⟨hS, hE, hL, action, hi, hst⟩ :=
    add_any_action_ok st st2 path kind coc binding var tabtypes h
  obtain ⟨f1, f2, f3⟩ := init_ok_fields hi
  subst hst
  unfold getPK get_action
  rw [pyRstripSlash_eq_self path hE,
    finishAdd_lookup st path kind action tabtypes binding hL f3]
  cases tabtypes <;> simp [f1, f2] <;> exact ⟨_, rfl, rfl, rfl⟩

theorem add_any_action_invalid (st : St) (path : String) (kind : Kind)
    (coc : CbOrChoices) (binding : Option String) (var : Option Nat)
    (tabtypes : Option (List TabType))
    (h : (pyStartsWithSlash path || pyEndsWithSlash path) = true) :
    add_any_action st path kind coc binding var tabtypes
      = (st, some InvalidPathError) := by
  unfold add_any_action
  rw [if_pos h]

theorem add_any_action_dup (st : St) (path : String) (kind : Kind)
    (coc : CbOrChoices) (binding : Option String) (var : Option Nat)
    (tabtypes : Option (List TabType))
    (h1 : (pyStartsWithSlash path || pyEndsWithSlash path) = false)
    (h2 : (lookupA st.actions path).isSome = true) :
    add_any_action st path kind coc binding var tabtypes
      = (st, some DuplicatePathError) := by
  unfold add_any_action
  rw [if_neg (by simp [h1]), if_pos h2]

theorem registryUntouched_trans (s1 s2 s3 : St)
    (h1 : registryUntouched s1 s2) (h2 : registryUntouched s2 s3) :
    registryUntouched s1 s3 := by
  obtain ⟨a1, b1, c1, d1, e1, f1, g1⟩ := h1
  obtain ⟨a2, b2, c2, d2, e2, f2, g2⟩ := h2
  exact ⟨a2.trans a1, b2.trans b1, c2.trans c1, d2.trans d1,
    e2.trans e1, f2.trans f1, g2.trans g1⟩

theorem registryUntouched_varSet (st : St) (vid : Nat) (v : Val) :
    registryUntouched st (varSet st vid v) := by
  unfold registryUntouched
  simp

theorem registryUntouched_mkBooleanVar (st : St) :
    registryUntouched st (mkBooleanVar st).2 := by
  unfold registryUntouched mkBooleanVar
  simp

theorem registryUntouched_mkStringVar (st : St) :
    registryUntouched st (mkStringVar st).2 := by
  unfold registryUntouched mkStringVar
  simp

theorem dup_from_mid (st stMid : St) (path : String) (kind : Kind)
    (coc : CbOrChoices) (binding : Option String) (var : Option Nat)
    (tabtypes : Option (List TabType))
    (hor : (pyStartsWithSlash path || pyEndsWithSlash path) = false)
    (hDup : (lookupA st.actions path).isSome = true)
    (hmid : registryUntouched st stMid) :
    (add_any_action stMid path kind coc binding var tabtypes).2
        = some DuplicatePathError ∧
      registryUntouched st (add_any_action stMid path kind coc binding var tabtypes).1 := by
  have hd2 : (lookupA stMid.actions path).isSome = true := by
    rw [hmid.1]
    exact hDup
  have he := add_any_action_dup stMid path kind coc binding var tabtypes hor hd2
  rw [he]
  exact ⟨rfl, hmid⟩

theorem invalid_from_mid (st stMid : St) (path : String) (kind : Kind)
    (coc : CbOrChoices) (binding : Option String) (var : Option Nat)
    (tabtypes : Option (List TabType))
    (hor : (pyStartsWithSlash path || pyEndsWithSlash path) = true)
    (hmid : registryUntouched st stMid) :
    (add_any_action stMid path kind coc binding var tabtypes).2
        = some InvalidPathError ∧
      registryUntouched st (add_any_action stMid path kind coc binding var tabtypes).1 := by
  have he := add_any_action_invalid stMid path kind coc binding var tabtypes hor
  rw [he]
  exact ⟨rfl, hmid⟩

/-- C1: for every valid registration input, `add_command` / `add_yesno` /
`add_choice` followed by `get_action` on the registered path returns an
action whose `path` equals that path and whose `kind` is the kind implied
by the entry point (`command`, `yesno`, `choice` respectively). -/
theorem c1_register_then_get :
    (∀ st st2 path cb bnd tt, add_command st path cb bnd tt = (st2, none) →
        getPK st2 path = some (path, Kind.command)) ∧
    (∀ st st2 path d bnd var tt, add_yesno st path d bnd var tt = (st2, none) →
        getPK st2 path = some (path, Kind.yesno)) ∧
    (∀ st st2 path cs d var tt, add_choice st path cs d var tt = (st2, none) →
        getPK st2 path = some (path, Kind.choice)) := by
  refine ⟨?_, ?_, ?_⟩
  · intro st st2 path cb bnd tt h
    exact add_any_action_getPK _ st2 path _ _ bnd none tt h
  · intro st st2 path d bnd var tt h
    unfold add_yesno at h
    cases var with
    | none =>
      cases d with
      | none => simp at h
      | some dv => exact add_any_action_getPK _ st2 path _ _ bnd _ tt h
    | some vid =>
      cases d with
      | some dv => exact add_any_action_getPK _ st2 path _ _ bnd _ tt h
      | none => exact add_any_action_getPK _ st2 path _ _ bnd _ tt h
  · intro st st2 path cs d var tt h
    unfold add_choice at h
    cases var with
    | none =>
      cases d with
      | none =>
        cases hh : cs.head? with
        | none => rw [hh] at h; simp at h
        | some c0 =>
          rw [hh] at h
          exact add_any_action_getPK _ st2 path _ _ none _ tt h
      | some dv =>
        dsimp only at h
        by_cases hm : dv ∈ cs
        · rw [if_pos hm] at h
          exact add_any_action_getPK _ st2 path _ _ none _ tt h
        · rw [if_neg hm] at h
          simp at h
    | some vid =>
      dsimp only at h
      by_cases hv : st.vars.getD vid (Val.s ("")) ∈ cs
      · rw [if_pos hv] at h
        cases d with
        | some dv =>
          dsimp only at h
          by_cases hm : dv ∈ cs
          · rw [if_pos hm] at h
            exact add_any_action_getPK _ st2 path _ _ none _ tt h
          · rw [if_neg hm] at h
            simp at h
        | none => exact add_any_action_getPK _ st2 path _ _ none _ tt h
      · rw [if_neg hv] at h
        simp at h

/-- Witness for C1 at a concrete input. -/
theorem c1_witness : getPK demoCmdSt ("a") = some (("a"), Kind.command) :=
  c1_register_then_get.1 emptySt demoCmdSt ("a") 7 none none (by decide)

/-- Counterexample to C3 as stated: `get_action` trims every trailing
slash, not at most one, so the query `a/b//` still finds the action
registered at `a/b` where the claim requires a `NotFoundError`. -/
theorem c3_counterexample :
    (get_action slashSt ("a/b//")).toOption = some slashAction ∧
      pyRstripSlash ("a/b//") = ("a/b") := by
  decide

/-- C3 (amended): `get_action` performs an exact-match lookup after
trimming ALL trailing slashes — a path registered without a trailing
slash is found via the path followed by any number of slashes — and
fails with a `NotFoundError` (`KeyError`) when the trimmed path is not
registered. -/
theorem c3_get_action_trims_all (st : St) :
    (∀ path a n, pyEndsWithSlash path = false →
        lookupA st.actions path = some a →
        get_action st ⟨path.data ++ List.replicate n '/'⟩ = Except.ok a) ∧
    (∀ q, lookupA st.actions (pyRstripSlash q) = none →
        get_action st q = Except.error (Err.keyError (pyRstripSlash q))) := by
  constructor
  · intro path a n hE hl
    unfold get_action
    rw [pyRstripSlash_append_slashes path n hE, hl]
  · intro q hq
    unfold get_action
    rw [hq]

/-- Witness for the amended C3 at a concrete input. -/
theorem c3_witness :
    get_action slashSt ⟨("a/b").data ++ List.replicate 2 '/'⟩
        = Except.ok slashAction ∧
      get_action slashSt ("c") = Except.error (Err.keyError ("c")) := by
  constructor
  · exact (c3_get_action_trims_all slashSt).1 ("a/b") slashAction 2
      (by decide) (by decide)
  · exact (c3_get_action_trims_all slashSt).2 ("c") (by decide)

/-- C4: writing the current value to `enabled` is observably a no-op;
writing a different value stores it and emits exactly one notification —
`<<ActionEnabled>>` if now true, `<<ActionDisabled>>` if now false —
carrying the action path. -/
theorem c4_enabled_setter (st : St) (path : String) (a : Action) (b : Bool)
    (h : lookupA st.actions path = some a) :
    (a.enabled = b → set_enabled st path b = st) ∧
    (a.enabled ≠ b →
      (set_enabled st path b).events = st.events ++
          [if b then Event.actionEnabled path else Event.actionDisabled path] ∧
        lookupA (set_enabled st path b).actions path
          = some { a with enabled := b }) := by
  constructor
  · intro he
    rw [set_enabled_eq st path a b h, if_pos he]
  · intro he
    refine ⟨?_, set_enabled_lookup st path a b h⟩
    rw [set_enabled_events st path a b h, if_neg he]

/-- Witness for C4 at a concrete input. -/
theorem c4_witness :
    (set_enabled demoCmdSt ("a") false).events
        = demoCmdSt.events ++ [Event.actionDisabled ("a")] ∧
      lookupA (set_enabled demoCmdSt ("a") false).actions ("a")
        = some { demoAction with enabled := false } :=
  (c4_enabled_setter demoCmdSt ("a") demoAction false (by decide)).2 (by decide)

/-- C10: the empty path passes the syntax check (it neither starts nor
ends with a slash), registration succeeds when the path is free, and the
stored action is returned by `get_action` both for the empty string and
for a single slash, which trims to the empty string. -/
theorem c10_empty_path (st : St) (kind : Kind) (coc : CbOrChoices)
    (binding : Option String) (var : Option Nat)
    (tabtypes : Option (List TabType)) (a : Action)
    (hi : Action.init ("") kind coc binding var = Except.ok a)
    (hL : lookupA st.actions ("") = none) :
    (add_any_action st ("") kind coc binding var tabtypes).2 = none ∧
      getPK (add_any_action st ("") kind coc binding var tabtypes).1 ("")
        = some (("") , kind) ∧
      get_action (add_any_action st ("") kind coc binding var tabtypes).1 ("/")
        = get_action (add_any_action st ("") kind coc binding var tabtypes).1 ("") := by
  have hrun : add_any_action st ("") kind coc binding var tabtypes
      = (finishAdd st ("") kind a tabtypes binding, none) := by
    unfold add_any_action
    rw [if_neg (by decide), if_neg (by simp [hL]), hi]
  refine ⟨by rw [hrun], ?_, ?_⟩
  · rw [hrun]
    exact add_any_action_getPK st _ ("") kind coc binding var tabtypes hrun
  · have hslash : pyRstripSlash ("/") = pyRstripSlash ("") := by decide
    unfold get_action
    rw [hslash]

/-- Witness for C10 at a concrete input. -/
theorem c10_witness :
    (add_any_action emptySt ("") Kind.command (CbOrChoices.cb 1) none none none).2
        = none ∧
      getPK (add_any_action emptySt ("") Kind.command (CbOrChoices.cb 1) none none none).1 ("")
        = some (("") , Kind.command) ∧
      get_action (add_any_action emptySt ("") Kind.command (CbOrChoices.cb 1) none none none).1 ("/")
        = get_action (add_any_action emptySt ("") Kind.command (CbOrChoices.cb 1) none none none).1 ("") :=
  c10_empty_path emptySt Kind.command (CbOrChoices.cb 1) none none none
    { path := ("") , kind := Kind.command, binding := none, enabled := true
    , callback := some 1, var := none, choices := [] } rfl (by decide)

theorem add_yesno_mid (st : St) (path : String) (d : Option Bool)
    (bnd : Option String) (var : Option Nat) (tt : Option (List TabType))
    (hargs : yesnoArgsOK d var = true) :
    ∃ stMid vid, registryUntouched st stMid ∧
      add_yesno st path d bnd var tt
        = add_any_action stMid path Kind.yesno CbOrChoices.none bnd (some vid) tt := by
  cases var with
  | none =>
    cases d with
    | none => simp [yesnoArgsOK] at hargs
    | some dv =>
      refine ⟨varSet (mkBooleanVar st).2 (mkBooleanVar st).1 (Val.b dv),
        (mkBooleanVar st).1, ?_, rfl⟩
      exact registryUntouched_trans _ _ _ (registryUntouched_mkBooleanVar st)
        (registryUntouched_varSet _ _ _)
  | some vid =>
    cases d with
    | some dv => exact ⟨varSet st vid (Val.b dv), vid, registryUntouched_varSet _ _ _, rfl⟩
    | none => exact ⟨st, vid, registryUntouched_refl st, rfl⟩

theorem add_choice_mid (st : St) (path : String) (cs : List Val) (d : Option Val)
    (var : Option Nat) (tt : Option (List TabType))
    (hargs : choiceArgsOK st cs d var = true) :
    ∃ stMid vid, registryUntouched st stMid ∧
      add_choice st path cs d var tt
        = add_any_action stMid path Kind.choice (CbOrChoices.choices cs)
            none (some vid) tt := by
  cases var with
  | none =>
    cases d with
    | none =>
      cases cs with
      | nil => simp [choiceArgsOK] at hargs
      | cons c0 rest =>
        refine ⟨varSet (mkStringVar st).2 (mkStringVar st).1 c0,
          (mkStringVar st).1, ?_, rfl⟩
        exact registryUntouched_trans _ _ _ (registryUntouched_mkStringVar st)
          (registryUntouched_varSet _ _ _)
    | some dv =>
      have hm : dv ∈ cs := by simpa [choiceArgsOK] using hargs
      refine ⟨varSet (mkStringVar st).2 (mkStringVar st).1 dv,
        (mkStringVar st).1, ?_, ?_⟩
      · exact registryUntouched_trans _ _ _ (registryUntouched_mkStringVar st)
          (registryUntouched_varSet _ _ _)
      · unfold add_choice
        dsimp only
        rw [if_pos hm]
  | some vid =>
    cases d with
    | none =>
      have hv : st.vars.getD vid (Val.s ("")) ∈ cs := by
        simpa [choiceArgsOK] using hargs
      refine ⟨st, vid, registryUntouched_refl st, ?_⟩
      unfold add_choice
      dsimp only
      rw [if_pos hv]
    | some dv =>
      have hargs2 := hargs
      simp only [choiceArgsOK, Bool.and_eq_true, decide_eq_true_eq] at hargs2
      obtain ⟨hv, hm⟩ := hargs2
      refine ⟨varSet st vid dv, vid, registryUntouched_varSet _ _ _, ?_⟩
      unfold add_choice
      dsimp only
      rw [if_pos hv, if_pos hm]

/-- Counterexample to C2 as stated: with path `a` already registered, a
second registration through `add_yesno` with a caller-supplied cell and a
default fails with `DuplicatePathError` — but the cell has been
overwritten by the failing call (the write to the cell happens before the
duplicate check), so observable state IS modified. -/
theorem c2_counterexample :
    c2Res.2 = some DuplicatePathError ∧ c2Res.1.vars ≠ c2CellSt.vars ∧
      c2Res.1.vars = [Val.b true] ∧ c2CellSt.vars = [Val.b false] := by
  decide

/-- C2 (amended): for a registered path, a second registration whose
kind-specific argument prechecks pass fails with `DuplicatePathError`,
and no registry-owned state (actions, events, subscriptions, traces, key
bindings, callback log, focus) is modified — so the first action remains
retrievable and unchanged. (A caller-supplied value cell, however, may
have been overwritten by a given default, and a fresh cell may have been
allocated, because those writes precede the duplicate check.) -/
theorem c2_duplicate_path (st : St) (path : String)
    (hS : pyStartsWithSlash path = false) (hE : pyEndsWithSlash path = false)
    (hDup : (lookupA st.actions path).isSome = true) :
    (∀ cb bnd tt, add_command st path cb bnd tt = (st, some DuplicatePathError)) ∧
    (∀ d bnd var tt, yesnoArgsOK d var = true →
        (add_yesno st path d bnd var tt).2 = some DuplicatePathError ∧
          registryUntouched st (add_yesno st path d bnd var tt).1) ∧
    (∀ cs d var tt, choiceArgsOK st cs d var = true →
        (add_choice st path cs d var tt).2 = some DuplicatePathError ∧
          registryUntouched st (add_choice st path cs d var tt).1) := by
  have hor : (pyStartsWithSlash path || pyEndsWithSlash path) = false := by
    simp [hS, hE]
  refine ⟨?_, ?_, ?_⟩
  · intro cb bnd tt
    exact add_any_action_dup st path _ _ bnd none tt hor hDup
  · intro d bnd var tt hargs
    obtain ⟨stMid, vid, hmid, heq⟩ := add_yesno_mid st path d bnd var tt hargs
    rw [heq]
    exact dup_from_mid st stMid path _ _ bnd _ tt hor hDup hmid
  · intro cs d var tt hargs
    obtain ⟨stMid, vid, hmid, heq⟩ := add_choice_mid st path cs d var tt hargs
    rw [heq]
    exact dup_from_mid st stMid path _ _ none _ tt hor hDup hmid

/-- Witness for the amended C2 at a concrete input. -/
theorem c2_witness :
    add_command demoCmdSt ("a") 8 none none
      = (demoCmdSt, some DuplicatePathError) :=
  (c2_duplicate_path demoCmdSt ("a") (by decide) (by decide) (by decide)).1
    8 none none

/-- Counterexample to C9 as stated: `add_yesno` with the invalid path
`/x` but no usable default or cell fails with the configuration error
(`TypeError`), not with `InvalidPathError` — the kind-specific argument
check runs before the path syntax check. -/
theorem c9_counterexample :
    (add_yesno emptySt ("/x") none none none none).2 = some ConfigurationError ∧
      (add_yesno emptySt ("/x") none none none none).2 ≠ some InvalidPathError ∧
      pyStartsWithSlash ("/x") = true := by
  decide

/-- C9 (amended): for a path that starts or ends with a slash, every
registration call whose kind-specific argument prechecks pass fails with
`InvalidPathError` and modifies no registry-owned state; with unusable
kind-specific arguments the kind-specific error fires first instead. -/
theorem c9_invalid_path (st : St) (path : String)
    (h : (pyStartsWithSlash path || pyEndsWithSlash path) = true) :
    (∀ cb bnd tt, add_command st path cb bnd tt = (st, some InvalidPathError)) ∧
    (∀ d bnd var tt, yesnoArgsOK d var = true →
        (add_yesno st path d bnd var tt).2 = some InvalidPathError ∧
          registryUntouched st (add_yesno st path d bnd var tt).1) ∧
    (∀ cs d var tt, choiceArgsOK st cs d var = true →
        (add_choice st path cs d var tt).2 = some InvalidPathError ∧
          registryUntouched st (add_choice st path cs d var tt).1) := by
  refine ⟨?_, ?_, ?_⟩
  · intro cb bnd tt
    exact add_any_action_invalid st path _ _ bnd none tt h
  · intro d bnd var tt hargs
    obtain ⟨stMid, vid, hmid, heq⟩ := add_yesno_mid st path d bnd var tt hargs
    rw [heq]
    exact invalid_from_mid st stMid path _ _ bnd _ tt h hmid
  · intro cs d var tt hargs
    obtain ⟨stMid, vid, hmid, heq⟩ := add_choice_mid st path cs d var tt hargs
    rw [heq]
    exact invalid_from_mid st stMid path _ _ none _ tt h hmid

/-- Witness for the amended C9 at a concrete input. -/
theorem c9_witness :
    add_command emptySt ("x/") 1 none none = (emptySt, some InvalidPathError) :=
  (c9_invalid_path emptySt ("x/") (by decide)).1 1 none none

theorem runTraceList_no_match (ts : List TraceRec) :
    ∀ (st : St) (vid : Nat), ts.filter (fun t => decide (t.vid = vid)) = [] →
      runTraceList st vid ts = st := by
  induction ts with
  | nil => intro st vid _; rfl
  | cons t rest ih =>
    intro st vid hf
    have ht : ¬(t.vid = vid) := by
      intro h
      simp [List.filter, h] at hf
    have hf2 : rest.filter (fun t => decide (t.vid = vid)) = [] := by
      simpa [List.filter, ht] using hf
    unfold runTraceList
    rw [if_neg ht]
    exact ih st vid hf2

theorem runTraceList_single (ts : List TraceRec) :
    ∀ (st : St) (vid : Nat) (t0 : TraceRec),
      ts.filter (fun t => decide (t.vid = vid)) = [t0] →
      runTraceList st vid ts = var_set_check st t0 := by
  induction ts with
  | nil => intro st vid t0 hf; simp [List.filter] at hf
  | cons t rest ih =>
    intro st vid t0 hf
    by_cases ht : t.vid = vid
    · have hsplit : t = t0 ∧ rest.filter (fun t => decide (t.vid = vid)) = [] := by
        have hthis := hf
        simp only [List.filter, ht, decide_True] at hthis
        exact ⟨(List.cons_eq_cons.mp hthis).1, (List.cons_eq_cons.mp hthis).2⟩
      obtain ⟨ht0, hrest⟩ := hsplit
      subst ht0
      unfold runTraceList
      rw [if_pos ht]
      exact runTraceList_no_match rest (var_set_check st t) vid hrest
    · have hf2 : rest.filter (fun t => decide (t.vid = vid)) = [t0] := by
        simpa [List.filter, ht] using hf
      unfold runTraceList
      rw [if_neg ht]
      exact ih st vid t0 hf2

/-- C7: an external write of a value outside `choices` to the cell of a
choice action (the single trace watching that cell) produces exactly one
warning naming the action and the offending value, does not raise (the
model is a total function), keeps the written value stored (no
rollback), and leaves every action — in particular the enabled flag —
untouched. -/
theorem c7_invalid_write_warns (st : St) (vid : Nat) (v : Val) (p : String)
    (cs : List Val)
    (htr : st.traces.filter (fun t => decide (t.vid = vid)) = [⟨p, vid, cs⟩])
    (hv : v ∉ cs) (hlen : vid < st.vars.length) :
    varSet st vid v
        = { st with
            vars := st.vars.set vid v,
            warnings := st.warnings ++ [⟨p, v⟩] } ∧
      (varSet st vid v).vars.get? vid = some v := by
  have hget : (st.vars.set vid v).get? vid = some v :=
    get?_set_self st.vars vid v hlen
  have heq : varSet st vid v
      = { st with
          vars := st.vars.set vid v,
          warnings := st.warnings ++ [⟨p, v⟩] } := by
    unfold varSet
    dsimp only
    have htr2 : st.traces.reverse.filter (fun t => decide (t.vid = vid))
        = [(⟨p, vid, cs⟩ : TraceRec)] := by
      rw [List.filter_reverse, htr]
      rfl
    rw [runTraceList_single st.traces.reverse _ vid ⟨p, vid, cs⟩ htr2]
    rw [var_set_check_eq _ ⟨p, vid, cs⟩ v hget]
    rw [if_neg hv]
  refine ⟨heq, ?_⟩
  rw [heq]
  exact hget

/-- Witness for C7 at a concrete input. -/
theorem c7_witness :
    varSet choiceSt 0 (Val.s ("zzz"))
        = { choiceSt with
            vars := choiceSt.vars.set 0 (Val.s ("zzz")),
            warnings := choiceSt.warnings ++ [⟨("p"), Val.s ("zzz")⟩] } ∧
      (varSet choiceSt 0 (Val.s ("zzz"))).vars.get? 0 = some (Val.s ("zzz")) :=
  c7_invalid_write_warns choiceSt 0 (Val.s ("zzz")) ("p")
    [Val.s ("a"), Val.s ("b")] (by decide) (by decide) (by decide)

/-- C8: firing the bound shortcut of a disabled action performs no
kind-specific effect and returns `None`, letting the input event
propagate as if no handler were installed; firing it on an enabled
action performs the effect (command: invoke the callback; yesno: flip
the boolean cell) and returns the string break, suppressing further
propagation. -/
theorem c8_binding_dispatch (st : St) (path : String) (a : Action)
    (h : lookupA st.actions path = some a) :
    (a.enabled = false → bind_callback st path = (st, none)) ∧
    (a.enabled = true → a.kind = Kind.command →
        bind_callback st path
          = ({ st with calls := st.calls ++ [a.callback.getD 0] }, some ("break"))) ∧
    (a.enabled = true → a.kind = Kind.yesno →
        ∀ vid x, a.var = some vid → st.vars.get? vid = some (Val.b x) →
          bind_callback st path = (varSet st vid (Val.b (!x)), some ("break")) ∧
            (bind_callback st path).1.vars.get? vid = some (Val.b (!x))) := by
  refine ⟨?_, ?_, ?_⟩
  · intro he
    unfold bind_callback
    rw [h]
    dsimp only
    rw [if_neg (by simp [he])]
  · intro he hk
    unfold bind_callback
    rw [h]
    dsimp only
    rw [if_pos he, hk, if_pos rfl,
      if_neg (show ¬(Kind.command = Kind.yesno) by decide)]
  · intro he hk vid x hvar hget
    have heq : bind_callback st path = (varSet st vid (Val.b (!x)), some ("break")) := by
      unfold bind_callback
      rw [h]
      dsimp only
      rw [if_pos he, hk, if_neg (show ¬(Kind.yesno = Kind.command) by decide),
        if_pos rfl, hvar]
      dsimp only
      rw [hget]
    refine ⟨heq, ?_⟩
    rw [heq]
    dsimp only
    rw [varSet_vars]
    obtain ⟨hlen, -⟩ := List.get?_eq_some.mp hget
    exact get?_set_self st.vars vid (Val.b (!x)) hlen

/-- Witness for C8 at a concrete input. -/
theorem c8_witness :
    bind_callback yesnoSt ("y") = (varSet yesnoSt 0 (Val.b true), some ("break")) ∧
      (bind_callback yesnoSt ("y")).1.vars.get? 0 = some (Val.b true) :=
  (c8_binding_dispatch yesnoSt ("y") yesnoAction (by decide)).2.2 rfl rfl 0 false
    (by decide) (by decide)

/-- C5: for an action registered with a tabtypes filter, the enabled
flag is recomputed at registration time and on every subsequent
tab-change event as membership of the focused document tag in the
filter, applied through the enabled setter so that a notification is
emitted exactly when the value actually changes. -/
theorem c5_tabtype_enablement :
    (∀ st st2 path kind coc bnd var tts,
        add_any_action st path kind coc bnd var (some tts) = (st2, none) →
        (lookupA st2.actions path).map Action.enabled
            = some (decide (st.focused ∈ tts)) ∧
          st2.subs = st.subs ++ [(path, tts)] ∧
          st2.events = st.events ++ [Event.newAction path] ++
            (if st.focused ∈ tts then [] else [Event.actionDisabled path])) ∧
    (∀ st tab path tts a,
        st.subs.filter (fun s => decide (s.1 = path)) = [(path, tts)] →
        lookupA st.actions path = some a →
        (lookupA (notebookTabChanged st tab).actions path).map Action.enabled
            = some (decide (tab ∈ tts)) ∧
          (notebookTabChanged st tab).events.filter (isEnableEventFor path)
            = st.events.filter (isEnableEventFor path) ++
              (if a.enabled = decide (tab ∈ tts) then []
               else if tab ∈ tts then [Event.actionEnabled path]
               else [Event.actionDisabled path])) := by
  constructor
  · intro st st2 path kind coc bnd var tts h
    obtain ⟨hS, hE, hL, action, hi, hst⟩ :=
      add_any_action_ok st st2 path kind coc bnd var (some tts) h
    obtain ⟨f1, f2, f3⟩ := init_ok_fields hi
    subst hst
    refine ⟨?_, ?_, ?_⟩
    · rw [finishAdd_lookup st path kind action (some tts) bnd hL f3]
      simp
    · rw [finishAdd_subs]
    · rw [finishAdd_events st path kind action (some tts) bnd hL f3]
  · intro st tab path tts a hf ha
    unfold notebookTabChanged
    obtain ⟨h1, h2⟩ :=
      runSubs_single_entry st.subs { st with focused := tab } path tts a hf ha
    constructor
    · rw [h1]
      simp
    · exact h2

/-- Witness for C5 at a concrete input. -/
theorem c5_witness :
    (lookupA (notebookTabChanged filteredSt (some 5)).actions ("p")).map Action.enabled
        = some true ∧
      (notebookTabChanged filteredSt (some 5)).events.filter (isEnableEventFor ("p"))
        = filteredSt.events.filter (isEnableEventFor ("p"))
            ++ [Event.actionEnabled ("p")] :=
  c5_tabtype_enablement.2 filteredSt (some 5) ("p") [some 5] filteredAction
    (by decide) (by decide)

theorem init_choice_var {path : String} {bnd : Option String} {var : Option Nat}
    {cs : List Val} {a : Action}
    (h : Action.init path Kind.choice (CbOrChoices.choices cs) bnd var = Except.ok a) :
    a.var = var ∧ a.choices = cs := by
  cases var with
  | none => simp [Action.init] at h
  | some vid =>
    simp [Action.init] at h
    simp [← h]

theorem choice_success_value (stMid st2 : St) (path : String) (cs : List Val)
    (vid : Nat) (d : Val) (tt : Option (List TabType))
    (hmidvars : stMid.vars.get? vid = some d)
    (h : add_any_action stMid path Kind.choice (CbOrChoices.choices cs)
        none (some vid) tt = (st2, none)) :
    actionValue st2 path = some d := by
  obtain ⟨hS, hE, hL, action, hi, hst⟩ :=
    add_any_action_ok stMid st2 path Kind.choice (CbOrChoices.choices cs)
      none (some vid) tt h
  obtain ⟨hvar, hcs⟩ := init_choice_var hi
  obtain ⟨f1, f2, f3⟩ := init_ok_fields hi
  subst hst
  unfold actionValue
  rw [finishAdd_lookup stMid path Kind.choice action tt none hL f3]
  dsimp only
  rw [hvar]
  dsimp only
  rw [finishAdd_vars]
  exact hmidvars

/-- C6: resolution of the initial value of a choice action. With no
shared cell: a given default must be in choices (InvalidChoiceError
otherwise) and becomes the value; with no default, choices-head is used.
With a shared cell: its current value must already be in choices
(InvalidChoiceError otherwise), and a given default must be in choices
too (failing otherwise) and then overwrites the cell. -/
theorem c6_choice_initial_value :
    (∀ st st2 path cs c0 tt, cs.head? = some c0 →
        add_choice st path cs none none tt = (st2, none) →
        actionValue st2 path = some c0) ∧
    (∀ st path cs d tt, d ∉ cs →
        add_choice st path cs (some d) none tt
          = (st, some InvalidChoiceDefault)) ∧
    (∀ st st2 path cs d tt,
        add_choice st path cs (some d) none tt = (st2, none) →
        actionValue st2 path = some d) ∧
    (∀ st path cs d vid tt, st.vars.getD vid (Val.s ("")) ∉ cs →
        add_choice st path cs d (some vid) tt = (st, some InvalidChoiceVar)) ∧
    (∀ st path cs d vid tt, st.vars.getD vid (Val.s ("")) ∈ cs → d ∉ cs →
        add_choice st path cs (some d) (some vid) tt
          = (st, some InvalidChoiceDefault)) ∧
    (∀ st st2 path cs d vid tt, vid < st.vars.length →
        add_choice st path cs (some d) (some vid) tt = (st2, none) →
        actionValue st2 path = some d) := by
  refine ⟨?_, ?_, ?_, ?_, ?_, ?_⟩
  · intro st st2 path cs c0 tt hc0 h
    unfold add_choice at h
    dsimp only at h
    rw [hc0] at h
    have hmid : (varSet (mkStringVar st).2 (mkStringVar st).1 c0).vars.get?
        (mkStringVar st).1 = some c0 := by
      rw [varSet_vars]
      exact get?_set_self _ _ _ (by simp [mkStringVar])
    exact choice_success_value _ st2 path cs _ c0 tt hmid h
  · intro st path cs d tt hd
    unfold add_choice
    dsimp only
    rw [if_neg hd]
  · intro st st2 path cs d tt h
    unfold add_choice at h
    dsimp only at h
    by_cases hd : d ∈ cs
    · rw [if_pos hd] at h
      have hmid : (varSet (mkStringVar st).2 (mkStringVar st).1 d).vars.get?
          (mkStringVar st).1 = some d := by
        rw [varSet_vars]
        exact get?_set_self _ _ _ (by simp [mkStringVar])
      exact choice_success_value _ st2 path cs _ d tt hmid h
    · rw [if_neg hd] at h
      simp at h
  · intro st path cs d vid tt hv
    unfold add_choice
    dsimp only
    rw [if_neg hv]
  · intro st path cs d vid tt hv hd
    unfold add_choice
    dsimp only
    rw [if_pos hv]
    rw [if_neg hd]
  · intro st st2 path cs d vid tt hlen h
    unfold add_choice at h
    dsimp only at h
    by_cases hv : st.vars.getD vid (Val.s ("")) ∈ cs
    · rw [if_pos hv] at h
      by_cases hd : d ∈ cs
      · rw [if_pos hd] at h
        have hmid : (varSet st vid d).vars.get? vid = some d := by
          rw [varSet_vars]
          exact get?_set_self st.vars vid d hlen
        exact choice_success_value _ st2 path cs _ d tt hmid h
      · rw [if_neg hd] at h
        simp at h
    · rw [if_neg hv] at h
      simp at h

/-- Witness for C6 at a concrete input. -/
theorem c6_witness :
    add_choice emptySt ("p") [Val.s ("a"), Val.s ("b")] (some (Val.s ("c")))
      none none = (emptySt, some InvalidChoiceDefault) :=
  c6_choice_initial_value.2.1 emptySt ("p") [Val.s ("a"), Val.s ("b")]
    (Val.s ("c")) none (by decide)

end Porcupine
